import Mathlib

/-!
Shallow embedding of the heart-rate reconciliation and training-load engine
of the `python-garminconnect` dashboard repository (`src/models.py`,
`src/jobs.py`), together with theorems settling the specification claims.

Conventions:
* Python numbers (timestamps in milliseconds, heart rates in bpm, minutes)
  are modelled as `ℚ`; the transcendental TRIMP values live in `ℝ` with
  `Real.exp` for `math.exp`.
* `None` is modelled by `Option`.
* Python `dict`s keyed in insertion order are modelled by association lists
  updated in place with new keys appended at the end.
* `TRIMPCalculator.__init__` stores `resting_hr`, `max_hr` and
  `hr_reserve = max_hr - resting_hr`, without any validation; the methods
  are embedded as functions taking `resting_hr` and `max_hr` directly.
  Likewise `jobs.calculate_trimp` obtains `(resting_hr, max_hr)` from
  `get_user_hr_parameters()`; here they are explicit parameters.
-/

/-- models.py `TRIMPCalculator.calculate_hr_reserve_ratio`: `0.0` when
`hr <= resting_hr`, otherwise `(hr - resting_hr) / hr_reserve` where
`hr_reserve = max_hr - resting_hr`. -/
def calculate_hr_reserve_ratio (resting_hr max_hr hr : ℚ) : ℚ :=
  if hr ≤ resting_hr then 0 else (hr - resting_hr) / (max_hr - resting_hr)

/-- models.py `TRIMPCalculator.calculate_trimp_for_hr`: `0.0` when `hr < 80`
(below exercise threshold), otherwise
`minutes * ratio * 0.64 * exp(1.92 * ratio)`. -/
noncomputable def calculate_trimp_for_hr (resting_hr max_hr hr minutes : ℚ) : ℝ :=
  if hr < 80 then 0
  else
    ((minutes : ℝ)) * ((calculate_hr_reserve_ratio resting_hr max_hr hr : ℚ) : ℝ) * 0.64 *
      Real.exp (1.92 * ((calculate_hr_reserve_ratio resting_hr max_hr hr : ℚ) : ℝ))

/-- models.py `TRIMPCalculator.presentation_buckets`: the fixed
`(min_hr, max_hr)` rows, in order.  The bucket names used as dict keys
(`"80-89"`, …, `"160+"`) are in bijection with these rows, so the rows
themselves serve as keys here. -/
def presentation_buckets : List (ℚ × ℚ) :=
  [(80, 89), (90, 99), (100, 109), (110, 119), (120, 129),
   (130, 139), (140, 149), (150, 159), (160, 999)]

/-- Result state of models.py `TRIMPCalculator.bucket_heart_rates`. -/
structure BucketState where
  individual_buckets : List (ℚ × ℕ)
  presentation : List ((ℚ × ℚ) × ℚ × ℝ)
  trimp_data : List (ℚ × ℝ)
  total_trimp : ℝ

/-- `individual_buckets[hr] = individual_buckets.get(hr, 0) + 1`. -/
def bumpIndividual : List (ℚ × ℕ) → ℚ → List (ℚ × ℕ)
  | [], k => [(k, 1)]
  | (k', c) :: rest, k =>
    if k' = k then (k', c + 1) :: rest else (k', c) :: bumpIndividual rest k

/-- `trimp_data[hr] = trimp_data.get(hr, 0.0) + trimp`. -/
def addTrimpData : List (ℚ × ℝ) → ℚ → ℝ → List (ℚ × ℝ)
  | [], k, v => [(k, v)]
  | (k', v') :: rest, k, v =>
    if k' = k then (k', v' + v) :: rest else (k', v') :: addTrimpData rest k v

/-- The `for i, (min_hr, max_hr) in enumerate(self.presentation_buckets)`
loop of `bucket_heart_rates`: add one minute and `tv` trimp to the first
bucket row whose `[min_hr, max_hr]` range contains `hr`, then `break`;
if no row matches, the state is unchanged. -/
def addPresentation : List ((ℚ × ℚ) × ℚ × ℝ) → ℚ → ℝ → List ((ℚ × ℚ) × ℚ × ℝ)
  | [], _, _ => []
  | (b, m, t) :: rest, hr, tv =>
    if b.1 ≤ hr ∧ hr ≤ b.2 then (b, m + 1, t + tv) :: rest
    else (b, m, t) :: addPresentation rest hr tv

/-- One iteration of the `for hr_value in heart_rate_values` loop of
`bucket_heart_rates` (list-format samples `[timestamp, value]`): samples
with null `hr` or `hr < 80` are skipped entirely. -/
noncomputable def bucketStep (resting_hr max_hr : ℚ) (st : BucketState)
    (hv : ℚ × Option ℚ) : BucketState :=
  match hv.2 with
  | none => st
  | some hr =>
    if 80 ≤ hr then
      { individual_buckets := bumpIndividual st.individual_buckets hr
        presentation := addPresentation st.presentation hr
          (calculate_trimp_for_hr resting_hr max_hr hr 1)
        trimp_data := addTrimpData st.trimp_data hr
          (calculate_trimp_for_hr resting_hr max_hr hr 1)
        total_trimp := st.total_trimp + calculate_trimp_for_hr resting_hr max_hr hr 1 }
    else st

/-- models.py `TRIMPCalculator.bucket_heart_rates`, applied to the
`heartRateValues` list (samples in the `[timestamp, value]` list format;
a missing/empty `heartRateValues` key corresponds to the empty list). -/
noncomputable def bucket_heart_rates (resting_hr max_hr : ℚ)
    (heartRateValues : List (ℚ × Option ℚ)) : BucketState :=
  heartRateValues.foldl (bucketStep resting_hr max_hr)
    ⟨[], presentation_buckets.map (fun b => (b, 0, 0)), [], 0⟩

/-- The ten zone labels returned by jobs.py `categorize_hr_zone`. -/
inductive HRZone
  | below80 | z80_89 | z90_99 | z100_109 | z110_119
  | z120_129 | z130_139 | z140_149 | z150_159 | z160plus
deriving DecidableEq

/-- jobs.py `categorize_hr_zone`. -/
def categorize_hr_zone (hr : ℚ) : HRZone :=
  if hr < 80 then .below80
  else if hr < 90 then .z80_89
  else if hr < 100 then .z90_99
  else if hr < 110 then .z100_109
  else if hr < 120 then .z110_119
  else if hr < 130 then .z120_129
  else if hr < 140 then .z130_139
  else if hr < 150 then .z140_149
  else if hr < 160 then .z150_159
  else .z160plus

/-- The `trimp_by_zone` dict update in jobs.py `calculate_trimp`: initialise
a missing zone with `{'minutes': 0, 'trimp': 0}`, then `+=` minutes and
trimp.  New zones are appended in insertion order. -/
def addToZone : List (HRZone × ℚ × ℝ) → HRZone → ℚ → ℝ → List (HRZone × ℚ × ℝ)
  | [], z, m, t => [(z, m, t)]
  | (z', m', t') :: rest, z, m, t =>
    if z' = z then (z', m' + m, t' + t) :: rest
    else (z', m', t') :: addToZone rest z m t

/-- A `[timestamp, heart_rate]` sample where either entry may be `None`. -/
abbrev OptSample : Type := Option ℚ × Option ℚ

/-- The contribution of one consecutive pair `(prev, cur)` in jobs.py
`calculate_trimp`: `0` when any of the four values is `None` or the gap
`(cur_ts - prev_ts)/1000` exceeds 300 seconds, otherwise
`interval_minutes * hr_reserve * 0.64 * exp(1.92 * hr_reserve)` with
`interval_minutes = (cur_ts - prev_ts)/1000/60` and
`hr_reserve = (cur_hr - resting_hr)/(max_hr - resting_hr)` (right-endpoint:
only `cur_hr` enters the formula). -/
noncomputable def interval_trimp (resting_hr max_hr : ℚ) (prev cur : OptSample) : ℝ :=
  match prev, cur with
  | (some prev_ts, some _prev_hr), (some cur_ts, some cur_hr) =>
    if (cur_ts - prev_ts) / 1000 > 300 then 0
    else
      (((cur_ts - prev_ts) / 1000 / 60 : ℚ) : ℝ) *
          (((cur_hr - resting_hr) / (max_hr - resting_hr) : ℚ) : ℝ) * 0.64 *
          Real.exp (1.92 * (((cur_hr - resting_hr) / (max_hr - resting_hr) : ℚ) : ℝ))
  | _, _ => 0

/-- One iteration of the `for i in range(1, len(hr_series))` loop of jobs.py
`calculate_trimp`, acting on the state `(total_trimp, trimp_by_zone)`. -/
noncomputable def trimpStep (resting_hr max_hr : ℚ) (st : ℝ × List (HRZone × ℚ × ℝ))
    (pc : OptSample × OptSample) : ℝ × List (HRZone × ℚ × ℝ) :=
  match pc with
  | ((some prev_ts, some _prev_hr), (some cur_ts, some cur_hr)) =>
    if (cur_ts - prev_ts) / 1000 > 300 then st
    else
      (st.1 +
          (((cur_ts - prev_ts) / 1000 / 60 : ℚ) : ℝ) *
            (((cur_hr - resting_hr) / (max_hr - resting_hr) : ℚ) : ℝ) * 0.64 *
            Real.exp (1.92 * (((cur_hr - resting_hr) / (max_hr - resting_hr) : ℚ) : ℝ)),
        addToZone st.2 (categorize_hr_zone cur_hr) ((cur_ts - prev_ts) / 1000 / 60)
          ((((cur_ts - prev_ts) / 1000 / 60 : ℚ) : ℝ) *
            (((cur_hr - resting_hr) / (max_hr - resting_hr) : ℚ) : ℝ) * 0.64 *
            Real.exp (1.92 * (((cur_hr - resting_hr) / (max_hr - resting_hr) : ℚ) : ℝ))))
  | _ => st

/-- jobs.py `calculate_trimp`: returns `(total_trimp, trimp_by_zone)`;
series of fewer than two samples yield `(0.0, {})`.  The loop pairs each
sample with its predecessor, i.e. it folds over `hr_series.zip hr_series.tail`. -/
noncomputable def calculate_trimp (resting_hr max_hr : ℚ) (hr_series : List OptSample) :
    ℝ × List (HRZone × ℚ × ℝ) :=
  if hr_series.length < 2 then (0, [])
  else (hr_series.zip hr_series.tail).foldl (trimpStep resting_hr max_hr) (0, [])

/-- A `[timestamp, heart_rate]` sample with both values present (timestamps
in milliseconds). -/
abbrev Sample : Type := ℚ × ℚ

/-- The `for i in range(1, len(hr_series))` loop of jobs.py
`find_continuous_segments`, carrying the previous sample, the finished
`segments` and the `current_segment` under construction.  A new segment is
started when `(current_ts - prev_ts)/1000 > 60`; the code guards each
`segments.append(current_segment)` with `if current_segment`. -/
def fcsLoop : List Sample → Sample → List (List Sample) → List Sample → List (List Sample)
  | [], _, segments, current =>
    if current ≠ [] then segments ++ [current] else segments
  | c :: rest, prev, segments, current =>
    if (c.1 - prev.1) / 1000 > 60 then
      fcsLoop rest c (if current ≠ [] then segments ++ [current] else segments) [c]
    else
      fcsLoop rest c segments (current ++ [c])

/-- jobs.py `find_continuous_segments`: `[]` for empty input,
`[hr_series]` for a single sample, otherwise the single-pass loop starting
from `current_segment = [hr_series[0]]`. -/
def find_continuous_segments (hr_series : List Sample) : List (List Sample) :=
  match hr_series with
  | [] => []
  | [x] => [[x]]
  | x :: rest => fcsLoop rest x [] [x]

/-- Structural-recursion presentation of `find_continuous_segments`,
used for the correctness proofs (proved equal to the loop below). -/
def fcsRec : List Sample → List (List Sample)
  | [] => []
  | [x] => [[x]]
  | x :: y :: rest =>
    if (y.1 - x.1) / 1000 > 60 then [x] :: fcsRec (y :: rest)
    else
      match fcsRec (y :: rest) with
      | [] => [[x]]
      | s :: ss => (x :: s) :: ss

/-- `segment[0][0]`: first timestamp of a segment. -/
def segFirstTs (segment : List Sample) : ℚ := segment.headI.1

/-- `segment[-1][0]`: last timestamp of a segment. -/
def segLastTs (segment : List Sample) : ℚ := ((segment.getLast?).getD (0, 0)).1

/-- One segment overwrite in jobs.py `merge_activity_hr_into_daily`: drop
every daily point whose timestamp lies in
`[segment_start, segment_end]` (kept iff `point[0] < segment_start or
point[0] > segment_end`), then extend with the segment's samples. -/
def applySegment (daily_hr_series : List Sample) (segment : List Sample) : List Sample :=
  (daily_hr_series.filter fun point =>
      decide (point.1 < segFirstTs segment ∨ point.1 > segLastTs segment)) ++ segment

/-- Ascending in-place `list.sort(key=lambda x: x[0])` on samples. -/
def sortByTs (l : List Sample) : List Sample :=
  List.insertionSort (fun a b : Sample => a.1 ≤ b.1) l

/-- The body of the `for activity in activities` loop of
`merge_activity_hr_into_daily`: activities without HR points are skipped
(`continue`); otherwise every continuous segment is applied as an overwrite
and the result is re-sorted by timestamp. -/
def mergeActivity (daily_hr_series activity_hr_series : List Sample) : List Sample :=
  if activity_hr_series = [] then daily_hr_series
  else
    sortByTs ((find_continuous_segments activity_hr_series).foldl applySegment daily_hr_series)

/-- jobs.py `merge_activity_hr_into_daily`, series-level content: the daily
series with each activity's segments applied in order.  (Reading the rows
from the database, recomputing TRIMP and writing the result back are
persistence glue around this transform.) -/
def merge_activity_hr_into_daily (daily_hr_series : List Sample)
    (activities : List (List Sample)) : List Sample :=
  activities.foldl mergeActivity daily_hr_series

/-- All segments contributed by a list of activities, in application order. -/
def allSegments (activities : List (List Sample)) : List (List Sample) :=
  (activities.map find_continuous_segments).flatten

/-- Timestamp `t` lies in `[segment.first_timestamp, segment.last_timestamp]`. -/
def inSegmentWindow (segment : List Sample) (t : ℚ) : Prop :=
  segFirstTs segment ≤ t ∧ t ≤ segLastTs segment

open Classical in
/-- jobs.py `calculate_pearson_correlation`: `0.0` on length mismatch or
fewer than two points; `0.0` when either sum of squared deviations is zero;
otherwise `numerator / (x_denominator * y_denominator) ** 0.5`, clamped to
`0.0` by the final guard if the result is not in `[-1, 1]`. -/
noncomputable def calculate_pearson_correlation (x_values y_values : List ℚ) : ℝ :=
  if x_values.length ≠ y_values.length ∨ x_values.length < 2 then 0
  else
    let x_mean := x_values.sum / x_values.length
    let y_mean := y_values.sum / y_values.length
    let numerator := ((x_values.zip y_values).map (fun p => (p.1 - x_mean) * (p.2 - y_mean))).sum
    let x_denominator := (x_values.map (fun x => (x - x_mean) ^ 2)).sum
    let y_denominator := (y_values.map (fun y => (y - y_mean) ^ 2)).sum
    if x_denominator = 0 ∨ y_denominator = 0 then 0
    else
      let correlation : ℝ := (numerator : ℝ) / Real.sqrt ((x_denominator * y_denominator : ℚ) : ℝ)
      if ¬(-1 ≤ correlation ∧ correlation ≤ 1) then 0 else correlation

/-- The `daily_hr_map` dict of jobs.py `align_hr_series`: for duplicated
timestamps the last value wins. -/
def lookupLastValue (window : List Sample) (k : ℚ) : ℚ :=
  (((window.filter (fun p => decide (p.1 = k))).getLast?).map Prod.snd).getD 0

/-- `min(daily_hr_map.keys(), key=lambda x: abs(x - activity_ts))`: Python's
`min` keeps the first key attaining the minimum, scanning in key order and
replacing only on a strictly smaller distance. -/
def closestKey (keys : List ℚ) (t : ℚ) : ℚ :=
  keys.foldl (fun best k => if |k - t| < |best - t| then k else best) keys.headI

/-- jobs.py `align_hr_series`: sort both series by timestamp, build the
daily map, and pair each activity sample `(ts, hr)` with the daily value at
the nearest daily timestamp, kept only when that timestamp is within
30000 ms.  Output entries are `[activity_hr, daily_hr]`. -/
def align_hr_series (activity_hr_series daily_hr_window : List Sample) : List (ℚ × ℚ) :=
  if activity_hr_series = [] ∨ daily_hr_window = [] then []
  else
    let act := sortByTs activity_hr_series
    let window := sortByTs daily_hr_window
    let keys := (window.map Prod.fst).eraseDup
    act.filterMap (fun p =>
      if |closestKey keys p.1 - p.1| ≤ 30000 then
        some (p.2, lookupLastValue window (closestKey keys p.1))
      else none)

/-- jobs.py `calculate_hr_correlation`.  An entry of `activity_metrics` is
its `metrics` array (entries without a `metrics` key are skipped by every
consumer and are omitted here); `activity_start_ts` stands for the parsed
`activity_start_time` in epoch ms, the activity window ending at
`activity_start_ts + activity_duration * 1000`.  The Python truthiness test
`if timestamp and hr_value and 48 <= hr_value <= 167` also rejects zero
values.  The surrounding `try/except` returns `0.0`; no exception can arise
in this exact-arithmetic embedding. -/
noncomputable def calculate_hr_correlation (activity_metrics : List (List (Option ℚ)))
    (ts_pos hr_pos : ℕ) (activity_start_ts activity_duration : ℚ)
    (daily_hr_data : List Sample) : ℝ :=
  let activity_hr_series := activity_metrics.filterMap (fun metrics =>
    if max ts_pos hr_pos < metrics.length then
      match metrics.getD ts_pos none, metrics.getD hr_pos none with
      | some timestamp, some hr_value =>
        if timestamp ≠ 0 ∧ hr_value ≠ 0 ∧ 48 ≤ hr_value ∧ hr_value ≤ 167 then
          some (timestamp, hr_value)
        else none
      | _, _ => none
    else none)
  if activity_hr_series.length < 10 then 0
  else
    let activity_end_ts := activity_start_ts + activity_duration * 1000
    let daily_hr_window := daily_hr_data.filter
      (fun p => decide (activity_start_ts ≤ p.1 ∧ p.1 ≤ activity_end_ts))
    if daily_hr_window.length < 5 then 0
    else
      let aligned := align_hr_series activity_hr_series daily_hr_window
      if aligned.length < 5 then 0
      else
        |calculate_pearson_correlation (aligned.map Prod.fst) (aligned.map Prod.snd)|

/-- `position_data[pos]`: all non-null values found at metrics position
`pos`, in entry order (jobs.py `detect_hr_and_timestamp_positions_advanced`). -/
def position_values (activity_metrics : List (List (Option ℚ))) (pos : ℕ) : List ℚ :=
  activity_metrics.filterMap (fun metrics => metrics.getD pos none)

/-- The set of positions `position_data` ranges over: all entries'
`enumerate(metrics)` indices, i.e. `0, …, (longest metrics array) - 1`,
which is also Python's dict insertion order here. -/
def num_positions (activity_metrics : List (List (Option ℚ))) : ℕ :=
  activity_metrics.foldl (fun m metrics => max m metrics.length) 0

/-- `min(values)` (used only on non-empty value lists). -/
def listMin (l : List ℚ) : ℚ := (l.min?).getD 0

/-- `max(values)` (used only on non-empty value lists). -/
def listMax (l : List ℚ) : ℚ := (l.max?).getD 0

/-- `len(set(values))`. -/
def distinctCount (l : List ℚ) : ℕ := l.eraseDup.length

/-- Timestamp-candidate test: non-empty values, all minima above the epoch
threshold `10^12`, min and max inside `[start_timestamp, end_timestamp]`,
and more than 100 distinct values. -/
def is_ts_candidate (activity_metrics : List (List (Option ℚ)))
    (start_timestamp end_timestamp : ℚ) (pos : ℕ) : Prop :=
  position_values activity_metrics pos ≠ [] ∧
  1000000000000 < listMin (position_values activity_metrics pos) ∧
  start_timestamp ≤ listMin (position_values activity_metrics pos) ∧
  listMin (position_values activity_metrics pos) ≤ end_timestamp ∧
  start_timestamp ≤ listMax (position_values activity_metrics pos) ∧
  listMax (position_values activity_metrics pos) ≤ end_timestamp ∧
  100 < distinctCount (position_values activity_metrics pos)

instance (activity_metrics : List (List (Option ℚ))) (s e : ℚ) (pos : ℕ) :
    Decidable (is_ts_candidate activity_metrics s e pos) := by
  unfold is_ts_candidate; infer_instance

/-- `ts_candidates` of the detector (the recorded `unique_count`/min/max
tuple fields are unused downstream and dropped). -/
def ts_candidates (activity_metrics : List (List (Option ℚ)))
    (start_timestamp end_timestamp : ℚ) : List ℕ :=
  (List.range (num_positions activity_metrics)).filter
    (fun pos => decide (is_ts_candidate activity_metrics start_timestamp end_timestamp pos))

/-- Heart-rate-candidate test: values within 48–167, not a London-latitude
column (51.4–51.5), and more than 5 distinct values. -/
def is_hr_candidate (activity_metrics : List (List (Option ℚ))) (pos : ℕ) : Prop :=
  position_values activity_metrics pos ≠ [] ∧
  48 ≤ listMin (position_values activity_metrics pos) ∧
  listMax (position_values activity_metrics pos) ≤ 167 ∧
  ¬(51.4 ≤ listMin (position_values activity_metrics pos) ∧
      listMax (position_values activity_metrics pos) ≤ 51.5) ∧
  5 < distinctCount (position_values activity_metrics pos)

instance (activity_metrics : List (List (Option ℚ))) (pos : ℕ) :
    Decidable (is_hr_candidate activity_metrics pos) := by
  unfold is_hr_candidate; infer_instance

/-- `hr_candidates` (computed identically on every timestamp-candidate
iteration, as it does not depend on `ts_pos`). -/
def hr_candidates (activity_metrics : List (List (Option ℚ))) : List ℕ :=
  (List.range (num_positions activity_metrics)).filter
    (fun pos => decide (is_hr_candidate activity_metrics pos))

/-- The `(ts_pos, hr_pos)` pairs visited by the nested candidate loops, in
visit order. -/
def candidate_pairs (activity_metrics : List (List (Option ℚ)))
    (start_timestamp end_timestamp : ℚ) : List (ℕ × ℕ) :=
  ((ts_candidates activity_metrics start_timestamp end_timestamp).map
    (fun t => (hr_candidates activity_metrics).map (fun h => (t, h)))).flatten

open Classical in
/-- The best-correlation tracking of the nested loops: state
`(best_correlation, best_hr_pos, best_ts_pos)` starting from
`(0.0, None, None)`, updated whenever `correlation > best_correlation`. -/
noncomputable def detectFold (corr : ℕ → ℕ → ℝ) (pairs : List (ℕ × ℕ)) :
    ℝ × Option ℕ × Option ℕ :=
  pairs.foldl
    (fun st p => if st.1 < corr p.1 p.2 then (corr p.1 p.2, some p.2, some p.1) else st)
    (0, none, none)

open Classical in
/-- jobs.py `detect_hr_and_timestamp_positions_advanced`, returning
`(heart_rate_position, timestamp_position, correlation_score)`.
`start_timestamp`/`end_timestamp` stand for the 3-day window computed from
`target_date` by the datetime glue. -/
noncomputable def detect_hr_and_timestamp_positions_advanced
    (activity_metrics : List (List (Option ℚ))) (start_timestamp end_timestamp : ℚ)
    (activity_start_ts activity_duration : ℚ) (daily_hr_data : List Sample) :
    Option ℕ × Option ℕ × ℝ :=
  if activity_metrics = [] ∨ daily_hr_data = [] then (none, none, 0)
  else if ts_candidates activity_metrics start_timestamp end_timestamp = [] then (none, none, 0)
  else
    let r := detectFold
      (fun t h => calculate_hr_correlation activity_metrics t h
        activity_start_ts activity_duration daily_hr_data)
      (candidate_pairs activity_metrics start_timestamp end_timestamp)
    if r.1 > 0.7 then (r.2.1, r.2.2, r.1) else (none, none, 0)

/-- The best correlation reached by the candidate loops (the value the
`> 0.7` acceptance test examines). -/
noncomputable def best_correlation (activity_metrics : List (List (Option ℚ)))
    (start_timestamp end_timestamp activity_start_ts activity_duration : ℚ)
    (daily_hr_data : List Sample) : ℝ :=
  (detectFold
    (fun t h => calculate_hr_correlation activity_metrics t h
      activity_start_ts activity_duration daily_hr_data)
    (candidate_pairs activity_metrics start_timestamp end_timestamp)).1

/-- A series given by a first sample and a list of `(gap_ms, hr)` steps:
`buildSeries t0 h0 [(g1, h1), …]` is the series with timestamps
`t0, t0+g1, t0+g1+g2, …` (all non-null) and heart rates `h0, h1, …`.
Used to state the gap invariant: two such series differ in a single gap
while every other sample datum is identical. -/
def buildSeries (t0 : ℚ) (h0 : Option ℚ) : List (ℚ × Option ℚ) → List OptSample
  | [] => [(some t0, h0)]
  | (g, h) :: rest => (some t0, h0) :: buildSeries (t0 + g) h rest

/-- `interval_trimp` as a function of the gap alone (its value on samples
with non-null timestamps depends only on `cur_ts - prev_ts`). -/
noncomputable def gap_trimp (resting_hr max_hr : ℚ) (prev_hr : Option ℚ) (gap_ms : ℚ)
    (cur_hr : Option ℚ) : ℝ :=
  interval_trimp resting_hr max_hr (some 0, prev_hr) (some gap_ms, cur_hr)

/-- Total TRIMP of `buildSeries t0 h0 l`, interval by interval. -/
noncomputable def gapSum (resting_hr max_hr : ℚ) (h0 : Option ℚ) :
    List (ℚ × Option ℚ) → ℝ
  | [] => 0
  | (g, h) :: rest => gap_trimp resting_hr max_hr h0 g h + gapSum resting_hr max_hr h rest

/-- Heart rate of the last sample of `buildSeries t0 h0 l`. -/
def lastHr (h0 : Option ℚ) (l : List (ℚ × Option ℚ)) : Option ℚ :=
  l.foldl (fun _ p => p.2) h0

/-! ### Interval decomposition of `calculate_trimp` -/

lemma trimpStep_fst (r m : ℚ) (st : ℝ × List (HRZone × ℚ × ℝ)) (pc : OptSample × OptSample) :
    (trimpStep r m st pc).1 = st.1 + interval_trimp r m pc.1 pc.2 := by
  rcases pc with ⟨⟨pt, ph⟩, ct, ch⟩
  rcases pt with _ | pt <;> rcases ph with _ | ph <;> rcases ct with _ | ct <;>
    rcases ch with _ | ch <;> simp [trimpStep, interval_trimp]
  split_ifs <;> simp

lemma foldl_trimpStep_fst (r m : ℚ) (l : List (OptSample × OptSample)) :
    ∀ st : ℝ × List (HRZone × ℚ × ℝ),
      (l.foldl (trimpStep r m) st).1
        = st.1 + (l.map (fun pc => interval_trimp r m pc.1 pc.2)).sum := by
  induction l with
  | nil => simp
  | cons a l ih =>
    intro st
    simp only [List.foldl_cons, List.map_cons, List.sum_cons, ih, trimpStep_fst]
    ring

lemma calculate_trimp_total (r m : ℚ) (s : List OptSample) :
    (calculate_trimp r m s).1
      = ((s.zip s.tail).map (fun pc => interval_trimp r m pc.1 pc.2)).sum := by
  unfold calculate_trimp
  split_ifs with h
  · rcases s with _ | ⟨a, _ | ⟨b, t⟩⟩
    · simp
    · simp
    · exfalso
      simp only [List.length_cons] at h
      omega
  · rw [foldl_trimpStep_fst]
    simp

lemma addToZone_trimpSum (zs : List (HRZone × ℚ × ℝ)) (z : HRZone) (m : ℚ) (t : ℝ) :
    ((addToZone zs z m t).map (fun e => e.2.2)).sum
      = (zs.map (fun e => e.2.2)).sum + t := by
  induction zs with
  | nil => simp [addToZone]
  | cons a zs ih =>
    rcases a with ⟨z', m', t'⟩
    by_cases hz : z' = z <;> simp [addToZone, hz, ih] <;> ring

lemma foldl_trimpStep_zoneSum (r m : ℚ) (l : List (OptSample × OptSample)) :
    ∀ st : ℝ × List (HRZone × ℚ × ℝ),
      st.1 = (st.2.map (fun e => e.2.2)).sum →
      (l.foldl (trimpStep r m) st).1
        = (((l.foldl (trimpStep r m) st).2).map (fun e => e.2.2)).sum := by
  induction l with
  | nil => intro st h; simpa using h
  | cons a l ih =>
    intro st h
    refine ih _ ?_
    rcases a with ⟨⟨pt, ph⟩, ct, ch⟩
    rcases pt with _ | pt <;> rcases ph with _ | ph <;> rcases ct with _ | ct <;>
      rcases ch with _ | ch <;> simp [trimpStep]
    · exact h
    · exact h
    · exact h
    · exact h
    · exact h
    · exact h
    · exact h
    · exact h
    · exact h
    · exact h
    · exact h
    · exact h
    · exact h
    · exact h
    · exact h
    · split_ifs
      · exact h
      · rw [addToZone_trimpSum, ← h]

/-! ### C3: heart-rate parameter validation -/

/-- C3 counterexample: with `resting_hr = 100 >= max_hr = 90` nothing is
rejected and no error is raised; the calculator happily computes a
(sign-flipped, negative) TRIMP value from the invalid parameters, contrary
to "no TRIMP value is ever computed from such parameters". -/
theorem C3_counterexample : calculate_trimp_for_hr 100 90 140 1 < 0 := by
  have h1 : ¬((140 : ℚ) < 80) := by norm_num
  have h2 : ¬((140 : ℚ) ≤ 100) := by norm_num
  simp only [calculate_trimp_for_hr, calculate_hr_reserve_ratio, if_neg h1, if_neg h2]
  have h3 : (((140 - 100) / (90 - 100) : ℚ) : ℝ) = -4 := by norm_num
  rw [h3]
  have h4 := Real.exp_pos (1.92 * (-4 : ℝ))
  have h5 : ((1 : ℚ) : ℝ) = 1 := by norm_num
  rw [h5]
  nlinarith

/-- C3 amended: neither `TRIMPCalculator.__init__` nor the TRIMP
calculators validate the heart-rate parameters: with
`resting_hr > max_hr` the engine does not raise before computation but
computes sign-flipped (negative) TRIMP values for every heart rate above
`resting_hr` at or above the exercise threshold.  (With
`resting_hr == max_hr` the only failure is the `ZeroDivisionError` at the
first ratio division itself, again not a pre-computation rejection.) -/
theorem C3_no_configuration_error (resting_hr max_hr hr minutes : ℚ)
    (hmr : max_hr < resting_hr) (hrh : resting_hr < hr) (h80 : 80 ≤ hr)
    (hmin : 0 < minutes) :
    calculate_trimp_for_hr resting_hr max_hr hr minutes < 0 := by
  have h1 : ¬(hr < 80) := not_lt.mpr h80
  have h2 : ¬(hr ≤ resting_hr) := not_le.mpr hrh
  simp only [calculate_trimp_for_hr, calculate_hr_reserve_ratio, if_neg h1, if_neg h2]
  have hratio : ((hr - resting_hr) / (max_hr - resting_hr) : ℚ) < 0 :=
    div_neg_of_pos_of_neg (by linarith) (by linarith)
  have hratioR : (((hr - resting_hr) / (max_hr - resting_hr) : ℚ) : ℝ) < 0 := by
    exact_mod_cast hratio
  have hminR : (0 : ℝ) < (minutes : ℝ) := by exact_mod_cast hmin
  have hexp := Real.exp_pos (1.92 * (((hr - resting_hr) / (max_hr - resting_hr) : ℚ) : ℝ))
  have hmr1 : (minutes : ℝ) * (((hr - resting_hr) / (max_hr - resting_hr) : ℚ) : ℝ) < 0 :=
    mul_neg_of_pos_of_neg hminR hratioR
  have hmr2 : (minutes : ℝ) * (((hr - resting_hr) / (max_hr - resting_hr) : ℚ) : ℝ) * 0.64 < 0 :=
    mul_neg_of_neg_of_pos hmr1 (by norm_num)
  exact mul_neg_of_neg_of_pos hmr2 hexp

/-- C3 witness: the amended theorem applied at
`resting_hr = 100, max_hr = 90, hr = 140, minutes = 1`. -/
theorem C3_witness :
    (90 : ℚ) < 100 ∧ (100 : ℚ) < 140 ∧ (80 : ℚ) ≤ 140 ∧ (0 : ℚ) < 1 ∧
      calculate_trimp_for_hr 100 90 140 1 < 0 :=
  ⟨by norm_num, by norm_num, by norm_num, by norm_num,
    C3_no_configuration_error 100 90 140 1 (by norm_num) (by norm_num) (by norm_num)
      (by norm_num)⟩

/-! ### C2: heart rates below 80 in the interval integration -/

/-- C2 counterexample: a qualifying one-minute interval at 60 bpm (below
the 80 bpm exercise threshold) makes `calculate_trimp` return a strictly
positive `total_trimp`, booked in the `'Below 80'` zone bucket — the
interval's contribution is neither zero nor bucketless. -/
theorem C2_counterexample :
    0 < (calculate_trimp 48 167 [(some 0, some 60), (some 60000, some 60)]).1 ∧
    (calculate_trimp 48 167 [(some 0, some 60), (some 60000, some 60)]).2
      = [(HRZone.below80, 1,
          (calculate_trimp 48 167 [(some 0, some 60), (some 60000, some 60)]).1)] := by
  have hlen : ¬(([(some (0:ℚ), some (60:ℚ)), (some 60000, some 60)] : List OptSample).length < 2) := by
    simp
  have hgap : ¬(((60000 : ℚ) - 0) / 1000 > 300) := by norm_num
  have hz : categorize_hr_zone 60 = HRZone.below80 := by
    norm_num [categorize_hr_zone]
  have hmin : ((60000 : ℚ) - 0) / 1000 / 60 = 1 := by norm_num
  simp only [calculate_trimp, if_neg hlen, List.zip, List.zipWith, List.foldl,
    trimpStep, if_neg hgap, hz, addToZone, hmin]
  constructor
  · have hr1 : (0 : ℝ) < (((60 - 48) / (167 - 48) : ℚ) : ℝ) := by norm_num
    have he := Real.exp_pos (1.92 * (((60 - 48) / (167 - 48) : ℚ) : ℝ))
    have h1 : ((1 : ℚ) : ℝ) = 1 := by norm_num
    rw [h1]
    nlinarith
  · norm_num

/-- C2 amended: in models.py (`calculate_trimp_for_hr`) heart rates below
80 bpm do contribute zero, but jobs.py `calculate_trimp` applies no such
threshold: a qualifying interval whose attributed heart rate lies strictly
between `resting_hr` and 80 contributes a strictly positive TRIMP to
`total_trimp`, and `categorize_hr_zone` books it in the dedicated
`'Below 80'` zone bucket. -/
theorem C2_below80_divergence (resting_hr max_hr prev_ts prev_hr cur_ts cur_hr minutes : ℚ)
    (h80 : cur_hr < 80) (hrh : resting_hr < cur_hr) (hrm : resting_hr < max_hr)
    (hts : prev_ts < cur_ts) (hgap : (cur_ts - prev_ts) / 1000 ≤ 300) :
    calculate_trimp_for_hr resting_hr max_hr cur_hr minutes = 0 ∧
    categorize_hr_zone cur_hr = HRZone.below80 ∧
    0 < interval_trimp resting_hr max_hr (some prev_ts, some prev_hr)
        (some cur_ts, some cur_hr) := by
  refine ⟨?_, ?_, ?_⟩
  · simp [calculate_trimp_for_hr, h80]
  · simp [categorize_hr_zone, h80]
  · simp only [interval_trimp]
    rw [if_neg (not_lt.mpr hgap)]
    have h1 : (0 : ℚ) < (cur_ts - prev_ts) / 1000 / 60 := by
      have : (0 : ℚ) < cur_ts - prev_ts := by linarith
      positivity
    have h2 : (0 : ℚ) < (cur_hr - resting_hr) / (max_hr - resting_hr) :=
      div_pos (by linarith) (by linarith)
    have h1R : (0 : ℝ) < (((cur_ts - prev_ts) / 1000 / 60 : ℚ) : ℝ) := by exact_mod_cast h1
    have h2R : (0 : ℝ) < (((cur_hr - resting_hr) / (max_hr - resting_hr) : ℚ) : ℝ) := by
      exact_mod_cast h2
    have h3 := Real.exp_pos (1.92 * (((cur_hr - resting_hr) / (max_hr - resting_hr) : ℚ) : ℝ))
    exact mul_pos (mul_pos (mul_pos h1R h2R) (by norm_num : (0:ℝ) < 0.64)) h3

/-- C2 witness: the amended theorem applied to the one-minute interval at
60 bpm with `resting_hr = 48, max_hr = 167`. -/
theorem C2_witness :
    (60 : ℚ) < 80 ∧ (48 : ℚ) < 60 ∧ (48 : ℚ) < 167 ∧ (0 : ℚ) < 60000 ∧
      ((60000 : ℚ) - 0) / 1000 ≤ 300 ∧
      (calculate_trimp_for_hr 48 167 60 1 = 0 ∧
        categorize_hr_zone 60 = HRZone.below80 ∧
        0 < interval_trimp 48 167 (some 0, some 60) (some 60000, some 60)) :=
  ⟨by norm_num, by norm_num, by norm_num, by norm_num, by norm_num,
    C2_below80_divergence 48 167 0 60 60000 60 1 (by norm_num) (by norm_num) (by norm_num)
      (by norm_num) (by norm_num)⟩

/-! ### C4: the >300 s gap invariant -/

lemma buildSeries_eq_cons (l : List (ℚ × Option ℚ)) (t : ℚ) (h : Option ℚ) :
    ∃ l', buildSeries t h l = (some t, h) :: l' := by
  cases l with
  | nil => exact ⟨[], rfl⟩
  | cons gh rest => exact ⟨_, rfl⟩

lemma interval_trimp_shift (r m pt ct : ℚ) (ph ch : Option ℚ) :
    interval_trimp r m (some pt, ph) (some ct, ch) = gap_trimp r m ph (ct - pt) ch := by
  cases ph with
  | none => cases ch <;> simp [gap_trimp, interval_trimp]
  | some p =>
    cases ch with
    | none => simp [gap_trimp, interval_trimp]
    | some c => simp [gap_trimp, interval_trimp]

lemma calculate_trimp_buildSeries (r m : ℚ) (l : List (ℚ × Option ℚ)) :
    ∀ (t0 : ℚ) (h0 : Option ℚ),
      (calculate_trimp r m (buildSeries t0 h0 l)).1 = gapSum r m h0 l := by
  induction l with
  | nil =>
    intro t0 h0
    rw [calculate_trimp_total]
    simp [buildSeries, gapSum]
  | cons gh l ih =>
    intro t0 h0
    obtain ⟨g, h⟩ := gh
    obtain ⟨l', hl'⟩ := buildSeries_eq_cons l (t0 + g) h
    rw [calculate_trimp_total]
    simp only [buildSeries, hl', List.zip_cons_cons, List.tail_cons, List.map_cons,
      List.sum_cons]
    have ht : l' = (buildSeries (t0 + g) h l).tail := by rw [hl']; rfl
    have hx : (some (t0 + g), h) :: (buildSeries (t0 + g) h l).tail
        = buildSeries (t0 + g) h l := by rw [hl']; rfl
    have hrest : ((((some (t0 + g), h) :: l').zip l').map
        (fun pc => interval_trimp r m pc.1 pc.2)).sum = gapSum r m h l := by
      rw [ht, hx, ← calculate_trimp_total]
      exact ih (t0 + g) h
    rw [hrest, interval_trimp_shift]
    have hg : t0 + g - t0 = g := by ring
    rw [hg]
    rfl

lemma gapSum_append (r m : ℚ) (xs : List (ℚ × Option ℚ)) :
    ∀ (h0 : Option ℚ) (ys : List (ℚ × Option ℚ)),
      gapSum r m h0 (xs ++ ys) = gapSum r m h0 xs + gapSum r m (lastHr h0 xs) ys := by
  induction xs with
  | nil => intro h0 ys; simp [gapSum, lastHr]
  | cons gh xs ih =>
    intro h0 ys
    obtain ⟨g, h⟩ := gh
    simp only [List.cons_append, gapSum, ih, lastHr, List.foldl_cons, List.append_eq]
    ring

lemma gap_trimp_skip (r m g : ℚ) (ph ch : Option ℚ) (hg : 300 < g / 1000) :
    gap_trimp r m ph g ch = 0 := by
  cases ph with
  | none => cases ch <;> simp [gap_trimp, interval_trimp]
  | some p =>
    cases ch with
    | none => simp [gap_trimp, interval_trimp]
    | some c =>
      simp only [gap_trimp, interval_trimp, sub_zero]
      rw [if_pos hg]

lemma gap_trimp_nonneg (r m g : ℚ) (ph ch : Option ℚ) (hrm : r < m) (hg0 : 0 ≤ g)
    (hch : ∀ v, ch = some v → r ≤ v) : 0 ≤ gap_trimp r m ph g ch := by
  cases ph with
  | none => cases ch <;> simp [gap_trimp, interval_trimp]
  | some p =>
    cases ch with
    | none => simp [gap_trimp, interval_trimp]
    | some c =>
      simp only [gap_trimp, interval_trimp, sub_zero]
      split_ifs with h
      · exact le_refl 0
      · have hm : (0 : ℚ) ≤ g / 1000 / 60 := by positivity
        have hr : (0 : ℚ) ≤ (c - r) / (m - r) :=
          div_nonneg (sub_nonneg.2 (hch c rfl)) (le_of_lt (sub_pos.2 hrm))
        have hmR : (0 : ℝ) ≤ ((g / 1000 / 60 : ℚ) : ℝ) := by exact_mod_cast hm
        have hrR : (0 : ℝ) ≤ (((c - r) / (m - r) : ℚ) : ℝ) := by exact_mod_cast hr
        exact mul_nonneg
          (mul_nonneg (mul_nonneg hmR hrR) (by norm_num))
          (Real.exp_pos _).le

/-- C4 counterexample: with `resting_hr = 48, max_hr = 167`, widening the
single 60 s interval of `[[0, 40], [60000, 40]]` to the >300 s gap
`[[0, 40], [301000, 40]]` strictly increases `total_trimp`: the attributed
heart rate 40 lies below `resting_hr`, so the discarded interval had a
negative contribution. -/
theorem C4_counterexample :
    (calculate_trimp 48 167 (buildSeries 0 (some 40) [(60000, some 40)])).1
      < (calculate_trimp 48 167 (buildSeries 0 (some 40) [(301000, some 40)])).1 := by
  rw [calculate_trimp_buildSeries, calculate_trimp_buildSeries]
  have hskip : gap_trimp 48 167 (some 40) 301000 (some 40) = 0 :=
    gap_trimp_skip 48 167 301000 (some 40) (some 40) (by norm_num)
  have hneg : gap_trimp 48 167 (some 40) 60000 (some 40) < 0 := by
    simp only [gap_trimp, interval_trimp, sub_zero]
    rw [if_neg (by norm_num)]
    have h1 : (0 : ℝ) < (((60000 : ℚ) / 1000 / 60 : ℚ) : ℝ) := by norm_num
    have h2 : ((((40 : ℚ) - 48) / (167 - 48) : ℚ) : ℝ) < 0 := by norm_num
    have h3 := Real.exp_pos (1.92 * ((((40 : ℚ) - 48) / (167 - 48) : ℚ) : ℝ))
    have h4 : (((60000 : ℚ) / 1000 / 60 : ℚ) : ℝ) * ((((40 : ℚ) - 48) / (167 - 48) : ℚ) : ℝ) < 0 :=
      mul_neg_of_pos_of_neg h1 h2
    have h5 := mul_neg_of_neg_of_pos h4 (by norm_num : (0:ℝ) < 0.64)
    exact mul_neg_of_neg_of_pos h5 h3
  simp only [gapSum]
  linarith

/-- C4 amended: the gap invariant holds for every interval whose attributed
heart rate is at least `resting_hr` (given valid parameters
`resting_hr < max_hr` and a forward-running closed gap): widening one gap
of a series beyond 300 s, keeping every other gap and every heart rate
unchanged, never increases `total_trimp`.  The counterexample shows the
restriction is necessary: below `resting_hr` the integrand is negative and
discarding it inflates the total. -/
theorem C4_gap_invariant_amended (resting_hr max_hr t0 g g' : ℚ) (h0 hm : Option ℚ)
    (pre post : List (ℚ × Option ℚ))
    (hrm : resting_hr < max_hr) (hg0 : 0 ≤ g) (_hg : g / 1000 ≤ 300)
    (hg' : 300 < g' / 1000)
    (hhm : ∀ v, hm = some v → resting_hr ≤ v) :
    (calculate_trimp resting_hr max_hr (buildSeries t0 h0 (pre ++ (g', hm) :: post))).1
      ≤ (calculate_trimp resting_hr max_hr (buildSeries t0 h0 (pre ++ (g, hm) :: post))).1 := by
  rw [calculate_trimp_buildSeries, calculate_trimp_buildSeries, gapSum_append, gapSum_append]
  simp only [gapSum]
  have h1 : gap_trimp resting_hr max_hr (lastHr h0 pre) g' hm = 0 :=
    gap_trimp_skip resting_hr max_hr g' (lastHr h0 pre) hm hg'
  have h2 : 0 ≤ gap_trimp resting_hr max_hr (lastHr h0 pre) g hm :=
    gap_trimp_nonneg resting_hr max_hr g (lastHr h0 pre) hm hrm hg0 hhm
  linarith

/-- C4 witness: the amended gap invariant applied to the concrete series
`[[0, 100], [60000, 100]]` against `[[0, 100], [301000, 100]]`. -/
theorem C4_witness :
    (48 : ℚ) < 167 ∧ (0 : ℚ) ≤ 60000 ∧ (60000 : ℚ) / 1000 ≤ 300 ∧
      (300 : ℚ) < 301000 / 1000 ∧ (∀ v : ℚ, some (100 : ℚ) = some v → 48 ≤ v) ∧
      (calculate_trimp 48 167 (buildSeries 0 (some 100) ([] ++ (301000, some 100) :: []))).1
        ≤ (calculate_trimp 48 167 (buildSeries 0 (some 100) ([] ++ (60000, some 100) :: []))).1 :=
  ⟨by norm_num, by norm_num, by norm_num, by norm_num,
    fun v hv => by rw [← Option.some.inj hv]; norm_num,
    C4_gap_invariant_amended 48 167 0 60000 301000 (some 100) (some 100) [] []
      (by norm_num) (by norm_num) (by norm_num) (by norm_num)
      (fun v hv => by rw [← Option.some.inj hv]; norm_num)⟩

/-! ### C1: the interval formula and the worked example -/

lemma exp_half_y_bounds :
    (2.0999 : ℝ) ≤ Real.exp (2208 / 2975) ∧ Real.exp (2208 / 2975) ≤ 2.1006 := by
  have hx : |(2208 / 2975 : ℝ)| ≤ 1 := by
    rw [abs_of_nonneg (by norm_num)]
    norm_num
  have hb := @Real.exp_bound (2208 / 2975) hx 6 (by norm_num)
  rw [abs_of_nonneg (by norm_num : (0 : ℝ) ≤ 2208 / 2975)] at hb
  obtain ⟨h1, h2⟩ := abs_sub_le_iff.mp hb
  have hSlb : (2.1002 : ℝ) ≤ ∑ m ∈ Finset.range 6, (2208 / 2975 : ℝ) ^ m / m.factorial := by
    simp only [Finset.sum_range_succ, Finset.sum_range_zero, Nat.factorial]
    norm_num
  have hSub : (∑ m ∈ Finset.range 6, (2208 / 2975 : ℝ) ^ m / m.factorial) ≤ 2.1003 := by
    simp only [Finset.sum_range_succ, Finset.sum_range_zero, Nat.factorial]
    norm_num
  have herr : (2208 / 2975 : ℝ) ^ 6 * ((Nat.succ 6 : ℝ) / ((Nat.factorial 6 : ℝ) * 6))
      ≤ 0.0003 := by
    simp only [Nat.factorial, Nat.succ_eq_add_one]
    norm_num
  constructor
  · linarith
  · linarith

lemma exp_y_bounds :
    (4.4095 : ℝ) ≤ Real.exp (4416 / 2975) ∧ Real.exp (4416 / 2975) ≤ 4.4126 := by
  obtain ⟨hl, hu⟩ := exp_half_y_bounds
  have hsplit : (4416 / 2975 : ℝ) = 2208 / 2975 + 2208 / 2975 := by norm_num
  rw [hsplit, Real.exp_add]
  have hpos : (0 : ℝ) < Real.exp (2208 / 2975) := Real.exp_pos _
  constructor
  · nlinarith
  · nlinarith

lemma worked_example_eval :
    (calculate_trimp 48 167 [(some 0, some 140), (some 60000, some 140)]).1
      = ((92 : ℝ) / 119) * 0.64 * Real.exp (4416 / 2975) := by
  rw [calculate_trimp_total]
  simp only [List.zip_cons_cons, List.tail_cons, List.zip_nil_right, List.map_cons,
    List.map_nil, List.sum_cons, List.sum_nil, interval_trimp]
  rw [if_neg (by norm_num)]
  have harg : (1.92 : ℝ) * ((((140 : ℚ) - 48) / (167 - 48) : ℚ) : ℝ) = 4416 / 2975 := by
    push_cast
    norm_num
  rw [harg]
  push_cast
  norm_num

/-- C1 counterexample: the spec's own worked example
(`resting_hr = 48, max_hr = 167`, one qualifying one-minute interval at
140 bpm) does not yield a TRIMP of approximately 2.13: the code's value
is ≈ 2.1832, more than 0.05 away, so it fails any "within rounding"
comparison against 2.13 (which requires a distance below 0.005). -/
theorem C1_counterexample :
    (1 : ℝ) / 20 < |(calculate_trimp 48 167 [(some 0, some 140), (some 60000, some 140)]).1
      - 2.13| := by
  rw [worked_example_eval]
  have h := exp_y_bounds.1
  have hv : (2.181 : ℝ) ≤ (92 : ℝ) / 119 * 0.64 * Real.exp (4416 / 2975) := by nlinarith
  rw [abs_of_nonneg (by linarith)]
  linarith

/-- C1 amended: `calculate_trimp` is exactly the sum over consecutive pairs
of the right-endpoint interval contribution; a qualifying pair (non-null
values, gap ≤ 300 s) contributes exactly
`minutes * ratio * 0.64 * exp(1.92 * ratio)` with
`ratio = (cur_hr - resting_hr)/(max_hr - resting_hr)` computed from
`cur_hr` alone; and the worked example (`resting_hr = 48, max_hr = 167`,
one qualifying one-minute interval at 140 bpm) yields ≈ 2.18 within
rounding — not 2.13 as the spec displays. -/
theorem C1_interval_formula_and_example :
    (∀ (resting_hr max_hr : ℚ) (s : List OptSample),
      (calculate_trimp resting_hr max_hr s).1
        = ((s.zip s.tail).map (fun pc => interval_trimp resting_hr max_hr pc.1 pc.2)).sum) ∧
    (∀ resting_hr max_hr prev_ts prev_hr cur_ts cur_hr : ℚ,
      (cur_ts - prev_ts) / 1000 ≤ 300 →
      interval_trimp resting_hr max_hr (some prev_ts, some prev_hr) (some cur_ts, some cur_hr)
        = (((cur_ts - prev_ts) / 1000 / 60 : ℚ) : ℝ) *
            (((cur_hr - resting_hr) / (max_hr - resting_hr) : ℚ) : ℝ) * 0.64 *
            Real.exp (1.92 * (((cur_hr - resting_hr) / (max_hr - resting_hr) : ℚ) : ℝ))) ∧
    |(calculate_trimp 48 167 [(some 0, some 140), (some 60000, some 140)]).1 - 2.18|
      ≤ 0.005 := by
  refine ⟨calculate_trimp_total, ?_, ?_⟩
  · intro resting_hr max_hr prev_ts prev_hr cur_ts cur_hr hgap
    simp only [interval_trimp]
    rw [if_neg (not_lt.mpr hgap)]
  · rw [worked_example_eval]
    obtain ⟨hl, hu⟩ := exp_y_bounds
    have hlow : (2.1817 : ℝ) ≤ (92 : ℝ) / 119 * 0.64 * Real.exp (4416 / 2975) := by nlinarith
    have hhigh : (92 : ℝ) / 119 * 0.64 * Real.exp (4416 / 2975) ≤ 2.1834 := by nlinarith
    rw [abs_le]
    constructor <;> linarith

/-- C1 witness: the per-interval formula applied to the worked example's
one-minute interval. -/
theorem C1_witness :
    ((60000 : ℚ) - 0) / 1000 ≤ 300 ∧
      interval_trimp 48 167 (some 0, some 140) (some 60000, some 140)
        = ((((60000 : ℚ) - 0) / 1000 / 60 : ℚ) : ℝ) *
            ((((140 : ℚ) - 48) / (167 - 48) : ℚ) : ℝ) * 0.64 *
            Real.exp (1.92 * ((((140 : ℚ) - 48) / (167 - 48) : ℚ) : ℝ)) :=
  ⟨by norm_num,
    C1_interval_formula_and_example.2.1 48 167 0 140 60000 140 (by norm_num)⟩

/-! ### C8: total vs zone-bucket sums; C9: the daily bucketing path -/

lemma calculate_trimp_zoneSum (r m : ℚ) (s : List OptSample) :
    (calculate_trimp r m s).1 = (((calculate_trimp r m s).2).map (fun e => e.2.2)).sum := by
  unfold calculate_trimp
  split_ifs with h
  · simp
  · exact foldl_trimpStep_zoneSum r m _ (0, []) (by simp)

lemma addPresentation_fst (l : List ((ℚ × ℚ) × ℚ × ℝ)) (hr : ℚ) (tv : ℝ) :
    (addPresentation l hr tv).map Prod.fst = l.map Prod.fst := by
  induction l with
  | nil => simp [addPresentation]
  | cons a l ih =>
    rcases a with ⟨b, m, t⟩
    by_cases hc : b.1 ≤ hr ∧ hr ≤ b.2 <;> simp [addPresentation, hc, ih]

lemma addPresentation_trimpSum (l : List ((ℚ × ℚ) × ℚ × ℝ)) (hr : ℚ) (tv : ℝ)
    (h : ∃ e ∈ l, e.1.1 ≤ hr ∧ hr ≤ e.1.2) :
    ((addPresentation l hr tv).map (fun e => e.2.2)).sum
      = (l.map (fun e => e.2.2)).sum + tv := by
  induction l with
  | nil => simp at h
  | cons a l ih =>
    rcases a with ⟨b, m, t⟩
    by_cases hc : b.1 ≤ hr ∧ hr ≤ b.2
    · simp only [addPresentation, if_pos hc, List.map_cons, List.sum_cons]
      ring
    · obtain ⟨e, he, hbd⟩ := h
      rcases List.mem_cons.mp he with rfl | he'
      · exact absurd hbd hc
      · simp only [addPresentation, if_neg hc, List.map_cons, List.sum_cons,
          ih ⟨e, he', hbd⟩]
        ring

lemma bucket_match (hr : ℚ) (n : ℤ) (hn : (n : ℚ) = hr) (h80 : 80 ≤ hr) (h999 : hr ≤ 999) :
    ∃ e ∈ presentation_buckets, e.1 ≤ hr ∧ hr ≤ e.2 := by
  subst hn
  have h80' : (80 : ℤ) ≤ n := by exact_mod_cast h80
  have h999' : n ≤ 999 := by exact_mod_cast h999
  by_cases h1 : n ≤ 89
  · refine ⟨(80, 89), by simp [presentation_buckets], ?_, ?_⟩
    · show (80 : ℚ) ≤ (n : ℚ)
      exact_mod_cast h80'
    · show (n : ℚ) ≤ 89
      exact_mod_cast h1
  · by_cases h2 : n ≤ 99
    · refine ⟨(90, 99), by simp [presentation_buckets], ?_, ?_⟩
      · show (90 : ℚ) ≤ (n : ℚ)
        exact_mod_cast (by omega : (90 : ℤ) ≤ n)
      · show (n : ℚ) ≤ 99
        exact_mod_cast h2
    · by_cases h3 : n ≤ 109
      · refine ⟨(100, 109), by simp [presentation_buckets], ?_, ?_⟩
        · show (100 : ℚ) ≤ (n : ℚ)
          exact_mod_cast (by omega : (100 : ℤ) ≤ n)
        · show (n : ℚ) ≤ 109
          exact_mod_cast h3
      · by_cases h4 : n ≤ 119
        · refine ⟨(110, 119), by simp [presentation_buckets], ?_, ?_⟩
          · show (110 : ℚ) ≤ (n : ℚ)
            exact_mod_cast (by omega : (110 : ℤ) ≤ n)
          · show (n : ℚ) ≤ 119
            exact_mod_cast h4
        · by_cases h5 : n ≤ 129
          · refine ⟨(120, 129), by simp [presentation_buckets], ?_, ?_⟩
            · show (120 : ℚ) ≤ (n : ℚ)
              exact_mod_cast (by omega : (120 : ℤ) ≤ n)
            · show (n : ℚ) ≤ 129
              exact_mod_cast h5
          · by_cases h6 : n ≤ 139
            · refine ⟨(130, 139), by simp [presentation_buckets], ?_, ?_⟩
              · show (130 : ℚ) ≤ (n : ℚ)
                exact_mod_cast (by omega : (130 : ℤ) ≤ n)
              · show (n : ℚ) ≤ 139
                exact_mod_cast h6
            · by_cases h7 : n ≤ 149
              · refine ⟨(140, 149), by simp [presentation_buckets], ?_, ?_⟩
                · show (140 : ℚ) ≤ (n : ℚ)
                  exact_mod_cast (by omega : (140 : ℤ) ≤ n)
                · show (n : ℚ) ≤ 149
                  exact_mod_cast h7
              · by_cases h8 : n ≤ 159
                · refine ⟨(150, 159), by simp [presentation_buckets], ?_, ?_⟩
                  · show (150 : ℚ) ≤ (n : ℚ)
                    exact_mod_cast (by omega : (150 : ℤ) ≤ n)
                  · show (n : ℚ) ≤ 159
                    exact_mod_cast h8
                · refine ⟨(160, 999), by simp [presentation_buckets], ?_, ?_⟩
                  · show (160 : ℚ) ≤ (n : ℚ)
                    exact_mod_cast (by omega : (160 : ℤ) ≤ n)
                  · show (n : ℚ) ≤ 999
                    exact_mod_cast h999'

lemma bucket_fold_pres (r m : ℚ) (l : List (ℚ × Option ℚ)) :
    ∀ st : BucketState,
      (∀ p ∈ l, ∀ v : ℚ, p.2 = some v → 80 ≤ v → (∃ n : ℤ, (n : ℚ) = v) ∧ v ≤ 999) →
      st.presentation.map Prod.fst = presentation_buckets →
      st.total_trimp = (st.presentation.map (fun e => e.2.2)).sum →
      (l.foldl (bucketStep r m) st).total_trimp
        = (((l.foldl (bucketStep r m) st).presentation).map (fun e => e.2.2)).sum := by
  induction l with
  | nil => intro st _ _ hsum; simpa using hsum
  | cons a l ih =>
    intro st hmem hkeys hsum
    have hkeys' : (bucketStep r m st a).presentation.map Prod.fst = presentation_buckets := by
      rcases ha : a.2 with _ | v
      · simpa [bucketStep, ha] using hkeys
      · by_cases h80 : 80 ≤ v
        · simp only [bucketStep, ha, if_pos h80]
          rw [addPresentation_fst]
          exact hkeys
        · simpa [bucketStep, ha, h80] using hkeys
    have hsum' : (bucketStep r m st a).total_trimp
        = ((bucketStep r m st a).presentation.map (fun e => e.2.2)).sum := by
      rcases ha : a.2 with _ | v
      · simpa [bucketStep, ha] using hsum
      · by_cases h80 : 80 ≤ v
        · obtain ⟨⟨n, hn⟩, h999⟩ := hmem a (List.mem_cons_self a l) v ha h80
          obtain ⟨e, he, hbd⟩ := bucket_match v n hn h80 h999
          rw [← hkeys] at he
          obtain ⟨row, hrow, hrowfst⟩ := List.mem_map.mp he
          simp only [bucketStep, ha, if_pos h80]
          rw [addPresentation_trimpSum st.presentation v _
            ⟨row, hrow, by rw [hrowfst]; exact hbd⟩]
          rw [hsum]
        · simpa [bucketStep, ha, h80] using hsum
    simpa [List.foldl_cons] using
      ih (bucketStep r m st a) (fun p hp => hmem p (List.mem_cons_of_mem a hp)) hkeys' hsum'

/-- C8 counterexample: a single sample at 1000 bpm matches no presentation
bucket (the table tops out at `(160, 999)`), so `bucket_heart_rates` adds
its TRIMP to `total_trimp` but to no bucket: the sum across buckets stays
0 while `total_trimp` is strictly positive, so the 1e-6-relative sum
invariant fails. -/
theorem C8_counterexample :
    ((bucket_heart_rates 48 167 [(0, some 1000)]).presentation.map (fun e => e.2.2)).sum = 0 ∧
    0 < (bucket_heart_rates 48 167 [(0, some 1000)]).total_trimp ∧
    ¬(|(bucket_heart_rates 48 167 [(0, some 1000)]).total_trimp
          - ((bucket_heart_rates 48 167 [(0, some 1000)]).presentation.map
              (fun e => e.2.2)).sum|
        ≤ 1 / 1000000 * |(bucket_heart_rates 48 167 [(0, some 1000)]).total_trimp|) := by
  have htv : 0 < calculate_trimp_for_hr 48 167 1000 1 := by
    have h1 : ¬((1000 : ℚ) < 80) := by norm_num
    have h2 : ¬((1000 : ℚ) ≤ 48) := by norm_num
    simp only [calculate_trimp_for_hr, calculate_hr_reserve_ratio, if_neg h1, if_neg h2]
    have hr1 : (0 : ℝ) < ((((1000 : ℚ) - 48) / (167 - 48) : ℚ) : ℝ) := by norm_num
    have he := Real.exp_pos (1.92 * ((((1000 : ℚ) - 48) / (167 - 48) : ℚ) : ℝ))
    have hone : (0 : ℝ) < ((1 : ℚ) : ℝ) := by norm_num
    exact mul_pos (mul_pos (mul_pos hone hr1) (by norm_num)) he
  have hpres : (bucket_heart_rates 48 167 [(0, some 1000)]).presentation
      = presentation_buckets.map (fun b => (b, 0, 0)) := by
    norm_num [bucket_heart_rates, bucketStep, addPresentation, presentation_buckets]
  have htot : (bucket_heart_rates 48 167 [(0, some 1000)]).total_trimp
      = calculate_trimp_for_hr 48 167 1000 1 := by
    norm_num [bucket_heart_rates, bucketStep]
  have hsum0 : ((bucket_heart_rates 48 167 [(0, some 1000)]).presentation.map
      (fun e => e.2.2)).sum = 0 := by
    rw [hpres]
    apply List.sum_eq_zero
    intro x hx
    simp only [List.map_map, List.mem_map, Function.comp] at hx
    obtain ⟨b, _, rfl⟩ := hx
    rfl
  refine ⟨hsum0, by rw [htot]; exact htv, ?_⟩
  intro habs
  rw [hsum0, sub_zero, htot, abs_of_pos htv] at habs
  linarith

/-- C8 amended: `total_trimp = Σ zone_buckets trimp` holds exactly (hence a
fortiori within any tolerance) in the interval-integration calculator
(jobs.py `calculate_trimp`) for every input; in the bucketing calculator
(models.py `bucket_heart_rates`) it holds for every input whose counted
heart rates (non-null, ≥ 80) are integral and at most 999 — the
counterexample shows a 1000 bpm sample escapes every bucket and breaks the
invariant. -/
theorem C8_sum_invariant_amended :
    (∀ (resting_hr max_hr : ℚ) (s : List OptSample),
      (calculate_trimp resting_hr max_hr s).1
        = (((calculate_trimp resting_hr max_hr s).2).map (fun e => e.2.2)).sum) ∧
    (∀ (resting_hr max_hr : ℚ) (l : List (ℚ × Option ℚ)),
      (∀ p ∈ l, ∀ v : ℚ, p.2 = some v → 80 ≤ v → (∃ n : ℤ, (n : ℚ) = v) ∧ v ≤ 999) →
      (bucket_heart_rates resting_hr max_hr l).total_trimp
        = (((bucket_heart_rates resting_hr max_hr l).presentation).map
            (fun e => e.2.2)).sum) := by
  refine ⟨calculate_trimp_zoneSum, ?_⟩
  intro resting_hr max_hr l hmem
  refine bucket_fold_pres resting_hr max_hr l _ hmem ?_ ?_
  · simp [List.map_map, Function.comp_def]
  · symm
    apply List.sum_eq_zero
    intro x hx
    simp only [List.map_map, List.mem_map, Function.comp] at hx
    obtain ⟨b, _, rfl⟩ := hx
    rfl

/-- C8 witness: the bucketing half of the amended sum invariant applied to
the single integral sample `[0, 90]`. -/
theorem C8_witness :
    (∀ p ∈ [((0 : ℚ), some (90 : ℚ))], ∀ v : ℚ, p.2 = some v → 80 ≤ v →
      (∃ n : ℤ, (n : ℚ) = v) ∧ v ≤ 999) ∧
    (bucket_heart_rates 48 167 [(0, some 90)]).total_trimp
      = (((bucket_heart_rates 48 167 [(0, some 90)]).presentation).map
          (fun e => e.2.2)).sum := by
  have hyp : ∀ p ∈ [((0 : ℚ), some (90 : ℚ))], ∀ v : ℚ, p.2 = some v → 80 ≤ v →
      (∃ n : ℤ, (n : ℚ) = v) ∧ v ≤ 999 := by
    intro p hp v hv _
    simp only [List.mem_singleton] at hp
    subst hp
    simp only at hv
    have : (90 : ℚ) = v := Option.some.inj hv
    subst this
    exact ⟨⟨90, by norm_num⟩, by norm_num⟩
  exact ⟨hyp, C8_sum_invariant_amended.2 48 167 _ hyp⟩

lemma bucketStep_ts_irrel (r m : ℚ) (st : BucketState) (t t' : ℚ) (h : Option ℚ) :
    bucketStep r m st (t, h) = bucketStep r m st (t', h) := rfl

lemma bucket_foldl_total (r m : ℚ) (l : List (ℚ × Option ℚ)) :
    ∀ st : BucketState,
      (l.foldl (bucketStep r m) st).total_trimp
        = st.total_trimp + (l.map (fun p => match p.2 with
            | some hr => if 80 ≤ hr then calculate_trimp_for_hr r m hr 1 else 0
            | none => 0)).sum := by
  induction l with
  | nil => intro st; simp
  | cons a l ih =>
    intro st
    rcases ha : a.2 with _ | v
    · simp only [List.foldl_cons, List.map_cons, List.sum_cons, ha, ih]
      simp [bucketStep, ha]
    · by_cases h80 : 80 ≤ v
      · simp only [List.foldl_cons, List.map_cons, List.sum_cons, ha, if_pos h80, ih]
        simp only [bucketStep, ha, if_pos h80]
        ring
      · simp only [List.foldl_cons, List.map_cons, List.sum_cons, ha, if_neg h80, ih]
        simp [bucketStep, ha, h80]

/-- C9 (confirmed): on the daily-analysis path (`bucket_heart_rates`, as
invoked by `HeartRateAnalyzer.analyze_heart_rate_data` when a day's coarse
stream is stored), every sample with non-null `hr >= 80` contributes
exactly `calculate_trimp_for_hr(hr, 1)` — one fixed minute — and samples
with null hr or `hr < 80` contribute nothing; timestamps (hence the actual
spacing between samples) are ignored entirely, so no 300 s gap rule
applies: rewriting every timestamp leaves the whole result unchanged. -/
theorem C9_daily_bucket_path :
    (∀ (resting_hr max_hr : ℚ) (l : List (ℚ × Option ℚ)),
      (bucket_heart_rates resting_hr max_hr l).total_trimp
        = (l.map (fun p => match p.2 with
            | some hr => if 80 ≤ hr then calculate_trimp_for_hr resting_hr max_hr hr 1 else 0
            | none => 0)).sum) ∧
    (∀ (resting_hr max_hr : ℚ) (l : List (ℚ × Option ℚ)) (f : ℚ → ℚ),
      bucket_heart_rates resting_hr max_hr (l.map (fun p => (f p.1, p.2)))
        = bucket_heart_rates resting_hr max_hr l) := by
  constructor
  · intro r m l
    unfold bucket_heart_rates
    rw [bucket_foldl_total]
    simp
  · intro r m l f
    unfold bucket_heart_rates
    generalize (⟨[], presentation_buckets.map (fun b => (b, 0, 0)), [], 0⟩ : BucketState) = st
    induction l generalizing st with
    | nil => simp
    | cons a l ih =>
      simp only [List.map_cons, List.foldl_cons]
      rw [bucketStep_ts_irrel r m st (f a.1) a.1 a.2]
      exact ih _

/-! ### C5: the segment extractor -/

lemma fcsRec_cons_shape : ∀ (l : List Sample) (x : Sample),
    ∃ s ss, fcsRec (x :: l) = (x :: s) :: ss := by
  intro l
  induction l with
  | nil => intro x; exact ⟨[], [], rfl⟩
  | cons y rest ih =>
    intro x
    by_cases hgap : (y.1 - x.1) / 1000 > 60
    · exact ⟨[], fcsRec (y :: rest), by simp [fcsRec, hgap]⟩
    · obtain ⟨s', ss', hrec⟩ := ih y
      exact ⟨y :: s', ss', by simp [fcsRec, hgap, hrec]⟩

lemma fcsLoop_accum : ∀ (rest : List Sample) (prev : Sample) (segs : List (List Sample))
    (cur : List Sample), cur ≠ [] →
    fcsLoop rest prev segs cur = segs ++ fcsLoop rest prev [] cur := by
  intro rest
  induction rest with
  | nil => intro prev segs cur hcur; simp [fcsLoop, hcur]
  | cons c rest ih =>
    intro prev segs cur hcur
    by_cases hgap : (c.1 - prev.1) / 1000 > 60
    · simp only [fcsLoop, if_pos hgap, if_pos hcur, hcur]
      rw [ih c (segs ++ [cur]) [c] (by simp), ih c ([] ++ [cur]) [c] (by simp)]
      simp [List.append_assoc]
    · simp only [fcsLoop, if_neg hgap]
      rw [ih c segs (cur ++ [c]) (by simp)]

lemma fcsLoop_eq_rec : ∀ (rest : List Sample) (prev : Sample) (front : List Sample),
    ∃ s ss, fcsRec (prev :: rest) = (prev :: s) :: ss ∧
      fcsLoop rest prev [] (front ++ [prev]) = (front ++ prev :: s) :: ss := by
  intro rest
  induction rest with
  | nil =>
    intro prev front
    refine ⟨[], [], rfl, ?_⟩
    simp [fcsLoop]
  | cons c rest ih =>
    intro prev front
    by_cases hgap : (c.1 - prev.1) / 1000 > 60
    · obtain ⟨s', ss', hrec', hloop'⟩ := ih c []
      refine ⟨[], fcsRec (c :: rest), by simp [fcsRec, hgap], ?_⟩
      simp only [fcsLoop, if_pos hgap]
      rw [if_pos (by simp : front ++ [prev] ≠ [])]
      rw [fcsLoop_accum rest c ([] ++ [front ++ [prev]]) [c] (by simp)]
      have : fcsLoop rest c [] [c] = (c :: s') :: ss' := by simpa using hloop'
      rw [this, hrec']
      simp
    · obtain ⟨s', ss', hrec', hloop'⟩ := ih c (front ++ [prev])
      refine ⟨c :: s', ss', by simp [fcsRec, hgap, hrec'], ?_⟩
      simp only [fcsLoop, if_neg hgap]
      have harr : (front ++ [prev]) ++ [c] = (front ++ [prev]) ++ [c] := rfl
      calc fcsLoop rest c [] ((front ++ [prev]) ++ [c])
          = ((front ++ [prev]) ++ c :: s') :: ss' := hloop'
        _ = (front ++ prev :: c :: s') :: ss' := by simp

lemma find_continuous_segments_eq_rec (s : List Sample) :
    find_continuous_segments s = fcsRec s := by
  match s with
  | [] => rfl
  | [x] => rfl
  | x :: y :: rest =>
    obtain ⟨s', ss', hrec, hloop⟩ := fcsLoop_eq_rec (y :: rest) x []
    simp only [find_continuous_segments, hrec]
    simpa using hloop

lemma fcsRec_flatten : ∀ s : List Sample, (fcsRec s).flatten = s
  | [] => by simp [fcsRec]
  | [x] => by simp [fcsRec]
  | x :: y :: rest => by
    have ih := fcsRec_flatten (y :: rest)
    by_cases hgap : (y.1 - x.1) / 1000 > 60
    · simp [fcsRec, hgap, ih]
    · obtain ⟨s', ss', hrec⟩ := fcsRec_cons_shape rest y
      rw [hrec] at ih
      simp only [fcsRec, if_neg hgap, hrec]
      simp only [List.flatten_cons, List.cons_append] at ih ⊢
      exact congrArg (List.cons x) ih

lemma fcsRec_ne_nil : ∀ s : List Sample, ∀ seg ∈ fcsRec s, seg ≠ []
  | [] => by simp [fcsRec]
  | [x] => by simp [fcsRec]
  | x :: y :: rest => by
    have ih := fcsRec_ne_nil (y :: rest)
    intro seg hseg
    by_cases hgap : (y.1 - x.1) / 1000 > 60
    · rw [fcsRec, if_pos hgap] at hseg
      rcases List.mem_cons.mp hseg with rfl | hseg'
      · simp
      · exact ih seg hseg'
    · obtain ⟨s', ss', hrec⟩ := fcsRec_cons_shape rest y
      rw [fcsRec, if_neg hgap, hrec] at hseg
      rcases List.mem_cons.mp hseg with rfl | hseg'
      · simp
      · exact ih seg (hrec ▸ List.mem_cons_of_mem _ hseg')

lemma fcsRec_within : ∀ s : List Sample, ∀ seg ∈ fcsRec s,
    seg.Chain' (fun a b : Sample => (b.1 - a.1) / 1000 ≤ 60)
  | [] => by simp [fcsRec]
  | [x] => by simp [fcsRec]
  | x :: y :: rest => by
    have ih := fcsRec_within (y :: rest)
    intro seg hseg
    by_cases hgap : (y.1 - x.1) / 1000 > 60
    · rw [fcsRec, if_pos hgap] at hseg
      rcases List.mem_cons.mp hseg with rfl | hseg'
      · simp
      · exact ih seg hseg'
    · obtain ⟨s', ss', hrec⟩ := fcsRec_cons_shape rest y
      rw [fcsRec, if_neg hgap, hrec] at hseg
      rcases List.mem_cons.mp hseg with rfl | hseg'
      · refine List.chain'_cons.mpr ⟨not_lt.mp hgap, ?_⟩
        exact ih (y :: s') (hrec ▸ List.mem_cons_self _ _)
      · exact ih seg (hrec ▸ List.mem_cons_of_mem _ hseg')

lemma fcsRec_boundary : ∀ s : List Sample,
    (fcsRec s).Chain' (fun s1 s2 => (segFirstTs s2 - segLastTs s1) / 1000 > 60)
  | [] => by simp [fcsRec]
  | [x] => by simp [fcsRec]
  | x :: y :: rest => by
    have ih := fcsRec_boundary (y :: rest)
    obtain ⟨s', ss', hrec⟩ := fcsRec_cons_shape rest y
    by_cases hgap : (y.1 - x.1) / 1000 > 60
    · rw [fcsRec, if_pos hgap, hrec]
      rw [hrec] at ih
      refine List.chain'_cons.mpr ⟨?_, ih⟩
      simpa [segFirstTs, segLastTs] using hgap
    · rw [fcsRec, if_neg hgap, hrec]
      rw [hrec] at ih
      rcases ss' with _ | ⟨t, ts⟩
      · simp
      · obtain ⟨hrel, hchain⟩ := List.chain'_cons.mp ih
        refine List.chain'_cons.mpr ⟨?_, hchain⟩
        have hlast : segLastTs (x :: y :: s') = segLastTs (y :: s') := by
          simp [segLastTs, List.getLast?_cons_cons]
        rw [hlast]
        exact hrel

/-- C5 (confirmed): `find_continuous_segments` returns `[]` on empty input
and one one-element segment on a single sample; on the worked example
`[[0,100],[30000,101],[100000,102]]` (gaps 30 s then 70 s) it returns
exactly `[[0,100],[30000,101]]` and `[[100000,102]]`; and in general its
output concatenates back to the input, has no empty segment, keeps every
in-segment consecutive gap at most 60 s, and separates consecutive
segments by a gap of more than 60 s — i.e. a new segment starts exactly
when the gap to the previous sample exceeds 60 seconds. -/
theorem C5_segment_extractor :
    find_continuous_segments [] = [] ∧
    (∀ x : Sample, find_continuous_segments [x] = [[x]]) ∧
    find_continuous_segments [((0 : ℚ), (100 : ℚ)), (30000, 101), (100000, 102)]
      = [[(0, 100), (30000, 101)], [(100000, 102)]] ∧
    (∀ s : List Sample,
      (find_continuous_segments s).flatten = s ∧
      (∀ seg ∈ find_continuous_segments s,
        seg ≠ [] ∧ seg.Chain' (fun a b : Sample => (b.1 - a.1) / 1000 ≤ 60)) ∧
      (find_continuous_segments s).Chain'
        (fun s1 s2 => (segFirstTs s2 - segLastTs s1) / 1000 > 60)) := by
  refine ⟨rfl, fun x => rfl, ?_, ?_⟩
  · norm_num [find_continuous_segments, fcsLoop]
    simp
  · intro s
    rw [find_continuous_segments_eq_rec]
    exact ⟨fcsRec_flatten s,
      fun seg hseg => ⟨fcsRec_ne_nil s seg hseg, fcsRec_within s seg hseg⟩,
      fcsRec_boundary s⟩

/-! ### C6: the timeline reconciler -/

lemma mem_applySegment {daily seg : List Sample} {p : Sample} :
    p ∈ applySegment daily seg ↔
      (p ∈ daily ∧ (p.1 < segFirstTs seg ∨ p.1 > segLastTs seg)) ∨ p ∈ seg := by
  simp [applySegment, List.mem_filter, List.mem_append, decide_eq_true_eq]

lemma not_inSegmentWindow_iff (s : List Sample) (t : ℚ) :
    ¬ inSegmentWindow s t ↔ (t < segFirstTs s ∨ t > segLastTs s) := by
  rw [inSegmentWindow, not_and_or, not_le, not_le]

lemma foldl_applySegment_mem (segs : List (List Sample)) :
    ∀ (cur : List Sample) (p : Sample), p ∈ segs.foldl applySegment cur →
      p ∈ cur ∨ ∃ s ∈ segs, p ∈ s := by
  induction segs with
  | nil => intro cur p hp; exact Or.inl hp
  | cons s segs ih =>
    intro cur p hp
    rcases ih (applySegment cur s) p hp with h | ⟨s', hs', hps'⟩
    · rcases mem_applySegment.mp h with ⟨hd, _⟩ | hs
      · exact Or.inl hd
      · exact Or.inr ⟨s, List.mem_cons_self _ _, hs⟩
    · exact Or.inr ⟨s', List.mem_cons_of_mem _ hs', hps'⟩

lemma foldl_applySegment_not_window (segs : List (List Sample)) :
    ∀ (cur : List Sample) (p : Sample), p ∈ segs.foldl applySegment cur →
      (∀ s ∈ segs, p ∉ s) →
      p ∈ cur ∧ ∀ s ∈ segs, ¬ inSegmentWindow s p.1 := by
  induction segs with
  | nil => intro cur p hp _; exact ⟨hp, by simp⟩
  | cons s segs ih =>
    intro cur p hp hnot
    obtain ⟨hp', hw'⟩ := ih (applySegment cur s) p hp
      (fun s' hs' => hnot s' (List.mem_cons_of_mem _ hs'))
    rcases mem_applySegment.mp hp' with ⟨hd, hcond⟩ | hs
    · refine ⟨hd, ?_⟩
      intro s' hs'
      rcases List.mem_cons.mp hs' with rfl | hs''
      · exact (not_inSegmentWindow_iff s' p.1).mpr hcond
      · exact hw' s' hs''
    · exact absurd hs (hnot s (List.mem_cons_self _ _))

lemma foldl_applySegment_pres (segs : List (List Sample)) :
    ∀ (cur : List Sample) (p : Sample), p ∈ cur →
      (∀ s ∈ segs, ¬ inSegmentWindow s p.1) → p ∈ segs.foldl applySegment cur := by
  induction segs with
  | nil => intro cur p hp _; exact hp
  | cons s segs ih =>
    intro cur p hp hw
    refine ih (applySegment cur s) p ?_ (fun s' hs' => hw s' (List.mem_cons_of_mem _ hs'))
    exact mem_applySegment.mpr (Or.inl ⟨hp,
      (not_inSegmentWindow_iff s p.1).mp (hw s (List.mem_cons_self _ _))⟩)

lemma mem_sortByTs {l : List Sample} {p : Sample} : p ∈ sortByTs l ↔ p ∈ l :=
  List.mem_insertionSort _

lemma allSegments_cons (act : List Sample) (acts : List (List Sample)) :
    allSegments (act :: acts) = find_continuous_segments act ++ allSegments acts := by
  simp [allSegments]

lemma merge_mem_cases : ∀ (acts : List (List Sample)) (daily : List Sample) (p : Sample),
    p ∈ merge_activity_hr_into_daily daily acts →
    (∃ s ∈ allSegments acts, p ∈ s) ∨
      (p ∈ daily ∧ ∀ s ∈ allSegments acts, ¬ inSegmentWindow s p.1) := by
  intro acts
  induction acts with
  | nil =>
    intro daily p hp
    exact Or.inr ⟨hp, by simp [allSegments]⟩
  | cons act acts ih =>
    intro daily p hp
    rcases ih (mergeActivity daily act) p hp with hseg | ⟨hmem, hw⟩
    · obtain ⟨s, hs, hps⟩ := hseg
      exact Or.inl ⟨s, by rw [allSegments_cons]; exact List.mem_append_right _ hs, hps⟩
    · by_cases hact : act = []
      · subst hact
        refine Or.inr ⟨by simpa [mergeActivity] using hmem, ?_⟩
        intro s hs
        rw [allSegments_cons] at hs
        rcases List.mem_append.mp hs with hs' | hs'
        · simp [find_continuous_segments] at hs'
        · exact hw s hs'
      · rw [mergeActivity, if_neg hact] at hmem
        rw [mem_sortByTs] at hmem
        by_cases hx : ∃ s ∈ find_continuous_segments act, p ∈ s
        · obtain ⟨s, hs, hps⟩ := hx
          exact Or.inl ⟨s, by rw [allSegments_cons]; exact List.mem_append_left _ hs, hps⟩
        · push_neg at hx
          obtain ⟨hd, hw1⟩ := foldl_applySegment_not_window
            (find_continuous_segments act) daily p hmem hx
          refine Or.inr ⟨hd, ?_⟩
          intro s hs
          rw [allSegments_cons] at hs
          rcases List.mem_append.mp hs with hs' | hs'
          · exact hw1 s hs'
          · exact hw s hs'

lemma merge_preserves : ∀ (acts : List (List Sample)) (daily : List Sample) (p : Sample),
    p ∈ daily → (∀ s ∈ allSegments acts, ¬ inSegmentWindow s p.1) →
    p ∈ merge_activity_hr_into_daily daily acts := by
  intro acts
  induction acts with
  | nil => intro daily p hp _; exact hp
  | cons act acts ih =>
    intro daily p hp hw
    have hw1 : ∀ s ∈ find_continuous_segments act, ¬ inSegmentWindow s p.1 := by
      intro s hs
      exact hw s (by rw [allSegments_cons]; exact List.mem_append_left _ hs)
    have hw2 : ∀ s ∈ allSegments acts, ¬ inSegmentWindow s p.1 := by
      intro s hs
      exact hw s (by rw [allSegments_cons]; exact List.mem_append_right _ hs)
    refine ih (mergeActivity daily act) p ?_ hw2
    by_cases hact : act = []
    · simpa [mergeActivity, hact] using hp
    · rw [mergeActivity, if_neg hact, mem_sortByTs]
      exact foldl_applySegment_pres (find_continuous_segments act) daily p hp hw1

/-- C6 counterexample: two overlapping activities.  Timestamp 10000 lies
inside activity 1's segment window `[0, 10000]`, yet after applying
activity 2 (processed later, window `[10000, 10000]`) the reconciled value
at 10000 is `(10000, 200)` — a sample of activity 2, not of activity 1,
whose own sample `(10000, 101)` is gone.  So "the reconciled value comes
from that activity" fails for overlapping activities (the value does still
come from an activity, never from the daily source). -/
theorem C6_counterexample :
    merge_activity_hr_into_daily [((5000 : ℚ), (70 : ℚ))]
        [[(0, 100), (10000, 101)], [(10000, 200)]]
      = [(0, 100), (10000, 200)] ∧
    find_continuous_segments [((0 : ℚ), (100 : ℚ)), (10000, 101)]
      = [[(0, 100), (10000, 101)]] ∧
    inSegmentWindow [((0 : ℚ), (100 : ℚ)), (10000, 101)] 10000 ∧
    ((10000 : ℚ), (200 : ℚ)) ∉ [((0 : ℚ), (100 : ℚ)), (10000, 101)] ∧
    ((10000 : ℚ), (101 : ℚ)) ∉ merge_activity_hr_into_daily [((5000 : ℚ), (70 : ℚ))]
        [[(0, 100), (10000, 101)], [(10000, 200)]] := by
  have hfcs1 : find_continuous_segments [((0 : ℚ), (100 : ℚ)), (10000, 101)]
      = [[(0, 100), (10000, 101)]] := by
    norm_num [find_continuous_segments, fcsLoop]
    simp
  have hinner : mergeActivity [((5000 : ℚ), (70 : ℚ))] [(0, 100), (10000, 101)]
      = [(0, 100), (10000, 101)] := by
    rw [mergeActivity, if_neg (fun h => List.noConfusion h), hfcs1]
    simp only [List.foldl_cons, List.foldl_nil]
    have h1 : applySegment [((5000 : ℚ), (70 : ℚ))] [(0, 100), (10000, 101)]
        = [(0, 100), (10000, 101)] := by
      norm_num [applySegment, segFirstTs, segLastTs, List.filter]
    rw [h1]
    norm_num [sortByTs, List.insertionSort, List.orderedInsert]
  have hmerge : merge_activity_hr_into_daily [((5000 : ℚ), (70 : ℚ))]
      [[(0, 100), (10000, 101)], [(10000, 200)]] = [(0, 100), (10000, 200)] := by
    simp only [merge_activity_hr_into_daily, List.foldl_cons, List.foldl_nil]
    rw [hinner, mergeActivity, if_neg (fun h => List.noConfusion h)]
    have hfcs2 : find_continuous_segments [((10000 : ℚ), (200 : ℚ))] = [[(10000, 200)]] := rfl
    rw [hfcs2]
    simp only [List.foldl_cons, List.foldl_nil]
    have h3 : applySegment [((0 : ℚ), (100 : ℚ)), (10000, 101)] [(10000, 200)]
        = [(0, 100), (10000, 200)] := by
      norm_num [applySegment, segFirstTs, segLastTs, List.filter]
    rw [h3]
    norm_num [sortByTs, List.insertionSort, List.orderedInsert]
  refine ⟨hmerge, hfcs1, ?_, ?_, ?_⟩
  · constructor <;> norm_num [segFirstTs, segLastTs]
  · norm_num
  · rw [hmerge]
    norm_num

/-- C6 amended: in `merge_activity_hr_into_daily`, every reconciled sample
whose timestamp lies inside some activity segment's
`[first_timestamp, last_timestamp]` window is a sample of some applied
activity segment — never of the daily source (for overlapping activities
it is the last-applied covering segment's, per the counterexample) — and
every daily sample outside all activity windows is preserved verbatim in
the output. -/
theorem C6_reconciler_amended :
    (∀ (daily : List Sample) (activities : List (List Sample)) (p : Sample),
      p ∈ merge_activity_hr_into_daily daily activities →
      (∃ s ∈ allSegments activities, inSegmentWindow s p.1) →
      ∃ s ∈ allSegments activities, p ∈ s) ∧
    (∀ (daily : List Sample) (activities : List (List Sample)) (p : Sample),
      p ∈ daily → (∀ s ∈ allSegments activities, ¬ inSegmentWindow s p.1) →
      p ∈ merge_activity_hr_into_daily daily activities) := by
  constructor
  · intro daily activities p hp hwin
    rcases merge_mem_cases activities daily p hp with h | ⟨_, hnone⟩
    · exact h
    · obtain ⟨s, hs, hw⟩ := hwin
      exact absurd hw (hnone s hs)
  · intro daily activities p hp hw
    exact merge_preserves activities daily p hp hw

/-- C6 witness: preservation applied to the daily sample `(20000, 70)`
outside the single activity's window `[0, 10000]`. -/
theorem C6_witness :
    ((20000 : ℚ), (70 : ℚ)) ∈ [((20000 : ℚ), (70 : ℚ))] ∧
    (∀ s ∈ allSegments [[((0 : ℚ), (100 : ℚ)), (10000, 101)]],
      ¬ inSegmentWindow s (20000 : ℚ)) ∧
    ((20000 : ℚ), (70 : ℚ)) ∈ merge_activity_hr_into_daily [((20000 : ℚ), (70 : ℚ))]
      [[((0 : ℚ), (100 : ℚ)), (10000, 101)]] := by
  have hseg : allSegments [[((0 : ℚ), (100 : ℚ)), (10000, 101)]]
      = [[(0, 100), (10000, 101)]] := by
    simp only [allSegments, List.map_cons, List.map_nil, List.flatten]
    norm_num [find_continuous_segments, fcsLoop]
    simp
  have hw : ∀ s ∈ allSegments [[((0 : ℚ), (100 : ℚ)), (10000, 101)]],
      ¬ inSegmentWindow s (20000 : ℚ) := by
    rw [hseg]
    intro s hs
    simp only [List.mem_singleton] at hs
    subst hs
    rw [not_inSegmentWindow_iff]
    right
    norm_num [segLastTs]
  exact ⟨List.mem_singleton_self _, hw,
    C6_reconciler_amended.2 [((20000 : ℚ), (70 : ℚ))] [[((0 : ℚ), (100 : ℚ)), (10000, 101)]]
      ((20000 : ℚ), (70 : ℚ)) (List.mem_singleton_self _) hw⟩

/-! ### C10: total, bounded Pearson correlation -/

lemma list_dev_sq_sum_nonneg (l : List ℚ) (a : ℚ) :
    0 ≤ (l.map (fun x => (x - a) ^ 2)).sum := by
  apply List.sum_nonneg
  intro x hx
  obtain ⟨y, _, rfl⟩ := List.mem_map.mp hx
  positivity

open Classical in
lemma clamp_bounds (c : ℝ) :
    -1 ≤ (if ¬(-1 ≤ c ∧ c ≤ 1) then (0 : ℝ) else c) ∧
      (if ¬(-1 ≤ c ∧ c ≤ 1) then (0 : ℝ) else c) ≤ 1 := by
  by_cases h : ¬(-1 ≤ c ∧ c ≤ 1)
  · rw [if_pos h]
    norm_num
  · rw [if_neg h]
    rw [not_not] at h
    exact h

/-- C10 (confirmed): `calculate_pearson_correlation` is total and always
returns a value in `[-1, 1]`: it returns `0.0` on length mismatch or fewer
than two points, `0.0` when either sum of squared deviations is zero, and
`0.0` whenever the computed coefficient would fall outside `[-1, 1]` (the
final guard, which in exact arithmetic covers the float NaN/inf cases);
when the division is reached, both deviation sums are non-zero, so the
denominator `sqrt(x_denominator * y_denominator)` is strictly positive and
the division is never performed with a zero denominator. -/
theorem C10_pearson_total_and_bounded :
    (∀ xs ys : List ℚ, -1 ≤ calculate_pearson_correlation xs ys ∧
      calculate_pearson_correlation xs ys ≤ 1) ∧
    (∀ xs ys : List ℚ, xs.length ≠ ys.length ∨ xs.length < 2 →
      calculate_pearson_correlation xs ys = 0) ∧
    (∀ xs ys : List ℚ,
      (xs.map (fun x => (x - xs.sum / xs.length) ^ 2)).sum = 0 ∨
      (ys.map (fun y => (y - ys.sum / ys.length) ^ 2)).sum = 0 →
      calculate_pearson_correlation xs ys = 0) ∧
    (∀ xs ys : List ℚ,
      (xs.map (fun x => (x - xs.sum / xs.length) ^ 2)).sum ≠ 0 →
      (ys.map (fun y => (y - ys.sum / ys.length) ^ 2)).sum ≠ 0 →
      0 < Real.sqrt (((xs.map (fun x => (x - xs.sum / xs.length) ^ 2)).sum *
        (ys.map (fun y => (y - ys.sum / ys.length) ^ 2)).sum : ℚ) : ℝ)) := by
  refine ⟨?_, ?_, ?_, ?_⟩
  · intro xs ys
    unfold calculate_pearson_correlation
    dsimp only
    by_cases h1 : xs.length ≠ ys.length ∨ xs.length < 2
    · rw [if_pos h1]
      norm_num
    · rw [if_neg h1]
      by_cases h2 : (xs.map (fun x => (x - xs.sum / (xs.length : ℚ)) ^ 2)).sum = 0 ∨
          (ys.map (fun y => (y - ys.sum / (ys.length : ℚ)) ^ 2)).sum = 0
      · rw [if_pos h2]
        norm_num
      · rw [if_neg h2]
        exact clamp_bounds _
  · intro xs ys h
    unfold calculate_pearson_correlation
    rw [if_pos h]
  · intro xs ys h
    unfold calculate_pearson_correlation
    dsimp only
    by_cases h1 : xs.length ≠ ys.length ∨ xs.length < 2
    · rw [if_pos h1]
    · rw [if_neg h1, if_pos h]
  · intro xs ys hx hy
    have hx' : 0 < (xs.map (fun x => (x - xs.sum / xs.length) ^ 2)).sum :=
      lt_of_le_of_ne (list_dev_sq_sum_nonneg xs _) (Ne.symm hx)
    have hy' : 0 < (ys.map (fun y => (y - ys.sum / ys.length) ^ 2)).sum :=
      lt_of_le_of_ne (list_dev_sq_sum_nonneg ys _) (Ne.symm hy)
    apply Real.sqrt_pos.mpr
    have : (0 : ℚ) < (xs.map (fun x => (x - xs.sum / xs.length) ^ 2)).sum *
        (ys.map (fun y => (y - ys.sum / ys.length) ^ 2)).sum := mul_pos hx' hy'
    exact_mod_cast this

/-- C10 witness: the length-mismatch case at `xs = [0, 1]`, `ys = [0]`. -/
theorem C10_witness :
    (([(0 : ℚ), 1]).length ≠ ([(0 : ℚ)]).length ∨ ([(0 : ℚ), 1]).length < 2) ∧
    calculate_pearson_correlation [0, 1] [0] = 0 :=
  ⟨Or.inl (by norm_num), C10_pearson_total_and_bounded.2.1 [0, 1] [0] (Or.inl (by norm_num))⟩

/-! ### C7: the correlation-threshold detector -/

lemma detectFold_cases (corr : ℕ → ℕ → ℝ) :
    ∀ (pairs : List (ℕ × ℕ)) (st : ℝ × Option ℕ × Option ℕ),
      (st = (0, none, none) ∨ ∃ h t, st.2 = (some h, some t)) →
      (pairs.foldl (fun st p =>
          if st.1 < corr p.1 p.2 then (corr p.1 p.2, some p.2, some p.1) else st) st
          = (0, none, none) ∨
        ∃ h t, (pairs.foldl (fun st p =>
          if st.1 < corr p.1 p.2 then (corr p.1 p.2, some p.2, some p.1) else st) st).2
            = (some h, some t)) := by
  intro pairs
  induction pairs with
  | nil => intro st h; simpa using h
  | cons p pairs ih =>
    intro st h
    simp only [List.foldl_cons]
    apply ih
    by_cases hc : st.1 < corr p.1 p.2
    · rw [if_pos hc]
      exact Or.inr ⟨p.2, p.1, rfl⟩
    · rw [if_neg hc]
      exact h

lemma candidate_pairs_nil_of_hr (activity_metrics : List (List (Option ℚ)))
    (start_timestamp end_timestamp : ℚ) (h : hr_candidates activity_metrics = []) :
    candidate_pairs activity_metrics start_timestamp end_timestamp = [] := by
  unfold candidate_pairs
  rw [h]
  simp

/-- C7 (confirmed): the position detector either returns
`(some hr_pos, some ts_pos, best)` with the best aligned absolute Pearson
correlation `best` strictly above 0.7, or returns the undetected sentinel
`(None, None, 0.0)` — and when there are no timestamp candidates or no
heart-rate candidates at all it always returns the sentinel. -/
theorem C7_detector_threshold :
    (∀ (activity_metrics : List (List (Option ℚ)))
       (start_timestamp end_timestamp activity_start_ts activity_duration : ℚ)
       (daily_hr_data : List Sample),
      (∃ h t, detect_hr_and_timestamp_positions_advanced activity_metrics start_timestamp
            end_timestamp activity_start_ts activity_duration daily_hr_data
          = (some h, some t,
              best_correlation activity_metrics start_timestamp end_timestamp
                activity_start_ts activity_duration daily_hr_data) ∧
        (0.7 : ℝ) < best_correlation activity_metrics start_timestamp end_timestamp
            activity_start_ts activity_duration daily_hr_data) ∨
      detect_hr_and_timestamp_positions_advanced activity_metrics start_timestamp
          end_timestamp activity_start_ts activity_duration daily_hr_data
        = (none, none, 0)) ∧
    (∀ (activity_metrics : List (List (Option ℚ)))
       (start_timestamp end_timestamp activity_start_ts activity_duration : ℚ)
       (daily_hr_data : List Sample),
      ts_candidates activity_metrics start_timestamp end_timestamp = [] ∨
        hr_candidates activity_metrics = [] →
      detect_hr_and_timestamp_positions_advanced activity_metrics start_timestamp
          end_timestamp activity_start_ts activity_duration daily_hr_data
        = (none, none, 0)) := by
  constructor
  · intro am s e a d daily
    unfold detect_hr_and_timestamp_positions_advanced
    by_cases h1 : am = [] ∨ daily = []
    · rw [if_pos h1]
      exact Or.inr rfl
    · rw [if_neg h1]
      by_cases h2 : ts_candidates am s e = []
      · rw [if_pos h2]
        exact Or.inr rfl
      · rw [if_neg h2]
        dsimp only
        by_cases h3 : (detectFold
            (fun t h => calculate_hr_correlation am t h a d daily)
            (candidate_pairs am s e)).1 > 0.7
        · rw [if_pos h3]
          rcases detectFold_cases (fun t h => calculate_hr_correlation am t h a d daily)
              (candidate_pairs am s e) (0, none, none) (Or.inl rfl) with hz | ⟨hp, tp, hsome⟩
          · exfalso
            have : (detectFold (fun t h => calculate_hr_correlation am t h a d daily)
                (candidate_pairs am s e)).1 = 0 := by
              unfold detectFold
              rw [hz]
            rw [this] at h3
            norm_num at h3
          · refine Or.inl ⟨hp, tp, ?_, h3⟩
            unfold best_correlation
            unfold detectFold
            rw [hsome]
        · rw [if_neg h3]
          exact Or.inr rfl
  · intro am s e a d daily h
    unfold detect_hr_and_timestamp_positions_advanced
    by_cases h1 : am = [] ∨ daily = []
    · rw [if_pos h1]
    · rw [if_neg h1]
      rcases h with h2 | h2
      · rw [if_pos h2]
      · by_cases hts : ts_candidates am s e = []
        · rw [if_pos hts]
        · rw [if_neg hts]
          dsimp only
          rw [candidate_pairs_nil_of_hr am s e h2]
          rw [if_neg (by norm_num [detectFold] : ¬((detectFold
              (fun t h => calculate_hr_correlation am t h a d daily) []).1 > 0.7))]

/-- C7 witness: the no-candidate clause applied to a one-entry matrix whose
single value is far below the epoch-milliseconds threshold. -/
theorem C7_witness :
    (ts_candidates [[some (1 : ℚ)]] 0 0 = [] ∨ hr_candidates [[some (1 : ℚ)]] = []) ∧
    detect_hr_and_timestamp_positions_advanced [[some (1 : ℚ)]] 0 0 0 0 [((0 : ℚ), (100 : ℚ))]
      = (none, none, 0) := by
  have h : ts_candidates [[some (1 : ℚ)]] 0 0 = [] ∨ hr_candidates [[some (1 : ℚ)]] = [] :=
    Or.inl (by decide)
  exact ⟨h, C7_detector_threshold.2 [[some (1 : ℚ)]] 0 0 0 0 [((0 : ℚ), (100 : ℚ))] h⟩
